import Mathlib

/-!
Verification of the MSR605 magnetic-stripe driver (msr605.py) against its
natural-language specification.  The Python source is shallowly embedded:
the ISO 7811-2 track codec (class ISO7811_2) becomes pure functions on
`List Char` / `Nat`, and the serial protocol layer (class MSR605) becomes
explicit state passing over a transport record holding the bytes still to
be read and the bytes written so far.  Fallible Python code (exceptions)
is modelled with `Option` / `Except`.
-/

set_option maxRecDepth 8000

namespace MSR605Spec

/-! ## ISO 7811-2 track codec (class ISO7811_2) -/

/-- ISO7811_2.TRACK1_CHARS: the 64-symbol track-1 alphabet (6 data bits). -/
def TRACK1_CHARS : List Char :=
  " !\"#$%&'()*+`,./0123456789:;<=>?@ABCDEFGHIJKLMNOPQRSTUVWXYZ[\\]^_".toList

/-- ISO7811_2.TRACK23_CHARS: the 16-symbol track-2/3 alphabet (4 data bits). -/
def TRACK23_CHARS : List Char := "0123456789:;<=>?".toList

/-- ISO7811_2._reverse_bits(value, nbits):
`sum(1 << (nbits - 1 - i) for i in xrange(nbits) if (value >> i) & 1)`. -/
def reverseBits (value nbits : Nat) : Nat :=
  ((List.range nbits).map fun i => if value.testBit i then 1 <<< (nbits - 1 - i) else 0).sum

/-- Helper for `withParity`: `sum(1 for i in xrange(nbits) if (value >> i) & 1)`,
the number of 1-bits of `value` among bit positions `0 .. nbits-1`. -/
def bitCount (value nbits : Nat) : Nat :=
  (List.range nbits).countP fun i => value.testBit i

/-- ISO7811_2._with_parity(value, nbits): return `value` unchanged if its low
`nbits` bits already have odd parity, otherwise set bit `nbits - 1`. -/
def withParity (value nbits : Nat) : Nat :=
  if bitCount value nbits % 2 ≠ 0 then value else value ||| (1 <<< (nbits - 1))

/-- The generator loop inside ISO7811_2._iso_encode_data, carrying the running
LRC.  Each input character is looked up in `mapping` (`mapping.index`; a
character absent from the alphabet makes the Python code raise ValueError,
modelled as `none`), its parity-carrying unit is emitted, and after the last
character one extra unit carrying the LRC is emitted. -/
def encodeUnits (mapping : List Char) (nbits : Nat) : List Char → Nat → Option (List Nat)
  | [], lrc => some [withParity lrc nbits]
  | c :: rest, lrc =>
    if c ∈ mapping then
      (encodeUnits mapping nbits rest (lrc ^^^ mapping.indexOf c)).map
        (withParity (mapping.indexOf c) nbits :: ·)
    else
      none

/-- ISO7811_2._iso_encode_data(data, mapping, nbits): the list of encoded unit
values (the Python code returns them as a string of `chr` codes together with
its length). -/
def isoEncodeData (data mapping : List Char) (nbits : Nat) : Option (List Nat) :=
  encodeUnits mapping nbits data 0

/-- The comprehension inside ISO7811_2._iso_decode_data:
`mapping[_reverse_bits(ord(c) >> 1, nbits - 1)]` for each input byte; an
out-of-range alphabet index (Python IndexError) is modelled as `none`. -/
def decodeChars (mapping : List Char) (nbits : Nat) : List Nat → Option (List Char)
  | [] => some []
  | b :: rest =>
    match mapping.get? (reverseBits (b >>> 1) (nbits - 1)), decodeChars mapping nbits rest with
    | some c, some cs => some (c :: cs)
    | _, _ => none

/-- ISO7811_2._iso_decode_data(data, mapping, nbits): the decoded character
list (the Python code returns it as a string together with its length). -/
def isoDecodeData (data : List Nat) (mapping : List Char) (nbits : Nat) : Option (List Char) :=
  decodeChars mapping nbits data

/-- ISO7811_2.encode_track1. -/
def encode_track1 (data : List Char) : Option (List Nat) := isoEncodeData data TRACK1_CHARS 7

/-- ISO7811_2.encode_track23. -/
def encode_track23 (data : List Char) : Option (List Nat) := isoEncodeData data TRACK23_CHARS 5

/-- ISO7811_2.decode_track1. -/
def decode_track1 (data : List Nat) : Option (List Char) := isoDecodeData data TRACK1_CHARS 7

/-- ISO7811_2.decode_track23. -/
def decode_track23 (data : List Nat) : Option (List Char) := isoDecodeData data TRACK23_CHARS 5

/-! ## Serial transport and protocol engine (class MSR605)

The serial port is modelled as the list of bytes still to be read (the
device's response stream, arriving after the command is sent — so the
`flushInput`/`flushOutput` performed by `_send_command`, which only discards
stale bytes buffered from an earlier exchange, is a no-op here) together with
the list of bytes written so far.  Python exceptions are modelled with
`Except`; an error value carries the transport state at the moment of the
raise, so that the bytes already written when an exception propagates remain
observable. -/

/-- The serial byte stream: bytes still to be read, and bytes written so far. -/
structure Transport where
  input : List Nat
  output : List Nat
  deriving DecidableEq

/-- The exception taxonomy of msr605.py.  `readError` carries the expected and
the actually read bytes (`_expect`'s message).  `characterNotInAlphabet` is
the spec's name for the ValueError that `mapping.index` inside
`_iso_encode_data` raises on a character absent from the alphabet (that
lookup failure is modelled as `none` in the codec; the write path never
actually reaches it, see `writeIsoSoft`).  `typeError` models the Python
TypeError raised by `ord('')` when a length byte is read from an exhausted
stream, and by the call to the `self`-less `_clean_iso_track_data`. -/
inductive MErr where
  | readError (expected actual : List Nat)
  | readWriteError
  | commandFormatError
  | invalidCommand
  | invalidCardSwipeForWrite
  | setError
  | characterNotInAlphabet
  | typeError
  deriving DecidableEq

/-- serial.Serial.read(n): returns up to `n` bytes (fewer only when the
stream is exhausted, i.e. on timeout). -/
def readT (n : Nat) (t : Transport) : List Nat × Transport :=
  (t.input.take n, { t with input := t.input.drop n })

/-- serial.Serial.write. -/
def writeT (bs : List Nat) (t : Transport) : Transport :=
  { t with output := t.output ++ bs }

/-- MSR605._expect(data): read `len(data)` bytes and compare; a mismatch
raises ReadError carrying the expected and the actual bytes. -/
def expectT (data : List Nat) (t : Transport) : Except (MErr × Transport) Transport :=
  let (readData, t') := readT data.length t
  if readData = data then .ok t' else .error (.readError data readData, t')

/-- The `exceptions` dict of MSR605._read_status. -/
def statusExceptions (b : Nat) : Option MErr :=
  if b = 0x31 then some .readWriteError
  else if b = 0x32 then some .commandFormatError
  else if b = 0x34 then some .invalidCommand
  else if b = 0x39 then some .invalidCardSwipeForWrite
  else if b = 0x41 then some .setError
  else none

/-- MSR605._read_status: expect ESC, read one status byte, raise the mapped
exception when the byte is one of the five recognized error statuses, and
otherwise return the byte(s) read (the empty list when the stream was
exhausted, mirroring Python's empty-string read). -/
def readStatusT (t : Transport) : Except (MErr × Transport) (List Nat × Transport) := do
  let t ← expectT [0x1B] t
  let (st, t) := readT 1 t
  match st with
  | [s] =>
    match statusExceptions s with
    | some e => .error (e, t)
    | none => .ok (st, t)
  | _ => .ok (st, t)

/-- MSR605._send_command(command, *args): write ESC + command + args. -/
def sendCommandT (command args : List Nat) (t : Transport) : Transport :=
  writeT (0x1B :: command ++ args) t

/-- MSR605.erase_card(t1, t2, t3): pack the three flags into one bitmask byte,
send the erase command 0x63 with that byte as its only argument, read status. -/
def eraseCard (t1 t2 t3 : Bool) (t : Transport) : Except (MErr × Transport) Transport := do
  let flags := (if t1 then 1 else 0) ||| (if t2 then 2 else 0) ||| (if t3 then 4 else 0)
  let t := sendCommandT [0x63] [flags] t
  let (_, t) ← readStatusT t
  return t

/-- The body of `read_tracks` inside MSR605.read_raw, for one track: expect
ESC + track number, read the length byte (`ord` of an empty read raises
TypeError), then read that many bytes. -/
def readTrackT (tn : Nat) (t : Transport) : Except (MErr × Transport) (List Nat × Transport) := do
  let t ← expectT [0x1B, tn] t
  let (lenByte, t) := readT 1 t
  match lenByte with
  | [n] => .ok (readT n t)
  | _ => .error (.typeError, t)

/-- MSR605.read_raw: send command 0x6D, expect the block start ESC 0x73, read
the three length-prefixed tracks, expect the terminator 0x3F 0x1C, read the
status, and return the three raw track byte strings. -/
def readRaw (t : Transport) :
    Except (MErr × Transport) ((List Nat × List Nat × List Nat) × Transport) := do
  let t := sendCommandT [0x6D] [] t
  let t ← expectT [0x1B, 0x73] t
  let (d1, t) ← readTrackT 1 t
  let (d2, t) ← readTrackT 2 t
  let (d3, t) ← readTrackT 3 t
  let t ← expectT [0x3F, 0x1C] t
  let (_, t) ← readStatusT t
  return ((d1, d2, d3), t)

/-- MSR605._reverse_bits(s), per byte: `int('{:08b}'.format(b)[::-1], 2)`,
i.e. the 8-bit reversal of the byte value. -/
def byteReverseBits (b : Nat) : Nat :=
  reverseBits b 8

/-- MSR605.write_raw(t1, t2, t3): build the raw data block — ESC 0x73, then
per track ESC + track number + length + bit-reversed bytes, then 0x3F 0x1C —
send it as the argument of command 0x6E, and read the status. -/
def writeRawT (tr1 tr2 tr3 : List Nat) (t : Transport) : Except (MErr × Transport) Transport := do
  let block := [0x1B, 0x73]
      ++ [0x1B, 1, tr1.length] ++ tr1.map byteReverseBits
      ++ [0x1B, 2, tr2.length] ++ tr2.map byteReverseBits
      ++ [0x1B, 3, tr3.length] ++ tr3.map byteReverseBits
      ++ [0x3F, 0x1C]
  let t := sendCommandT [0x6E] block t
  let (_, t) ← readStatusT t
  return t

/-- MSR605.select_bpi(t1_density, t2_density, t3_density): three 0x62 commands
(track 2 first, then track 1, then track 3), each followed by a status read. -/
def selectBpi (t1d t2d t3d : Bool) (t : Transport) : Except (MErr × Transport) Transport := do
  let t := sendCommandT [0x62] [if t2d then 0xD2 else 0x4B] t
  let (_, t) ← readStatusT t
  let t := sendCommandT [0x62] [if t1d then 0xA1 else 0xA0] t
  let (_, t) ← readStatusT t
  let t := sendCommandT [0x62] [if t3d then 0xC1 else 0xC0] t
  let (_, t) ← readStatusT t
  return t

/-- MSR605.set_bpc(t1, t2, t3): send command 0x6F with the three byte counts
and expect the echoed confirmation ESC 0x30 plus the three bytes. -/
def setBpc (b1 b2 b3 : Nat) (t : Transport) : Except (MErr × Transport) Transport := do
  let t := sendCommandT [0x6F] [b1, b2, b3] t
  let t ← expectT [0x1B, 0x30, b1, b2, b3] t
  return t

/-- MSR605.set_leading_zero(t13, t2): send command 0x7A with the two counts
and read the status. -/
def setLeadingZero (t13 t2 : Nat) (t : Transport) : Except (MErr × Transport) Transport := do
  let t := sendCommandT [0x7A] [t13, t2] t
  let (_, t) ← readStatusT t
  return t

/-- MSR605._set_iso_mode: select_bpi(True, False, True), set_bpc(7, 5, 5),
set_leading_zero(61, 22). -/
def setIsoMode (t : Transport) : Except (MErr × Transport) Transport := do
  let t ← selectBpi true false true t
  let t ← setBpc 7 5 5 t
  let t ← setLeadingZero 61 22 t
  return t

/-- MSR605.TRACK_SENTINELS. -/
def TRACK_SENTINELS : List (Char × Char) := [('%', '?'), (';', '?'), (';', '?')]

/-- The call `self._clean_iso_track_data(tracks)` of MSR605._write_iso_soft.
The method `_clean_iso_track_data` is defined without a `self` parameter, so
the bound-method call passes two arguments (the instance and `tracks`) to a
one-parameter function and raises TypeError unconditionally, before the
method body runs (the body could not run anyway: it formats a two-`%s`
pattern against a single `map` object and refers to an unbound `self`).  The
sentinel-stripping substitution it was meant to perform never executes. -/
def cleanIsoTrackData (_tracks : List (List Char)) (t : Transport) :
    Except (MErr × Transport) (List (List Char) × Transport) :=
  .error (.typeError, t)

/-- MSR605._write_iso_soft(t1, t2, t3): first apply the ISO device mode
configuration (which transmits the configuration commands), then call
_clean_iso_track_data — which raises TypeError unconditionally, so the
sentinel wrapping, the per-track ISO encoding (the only place a
character-not-in-alphabet error could arise) and the final write_raw in the
source text are unreachable and are not modelled further. -/
def writeIsoSoft (tr1 tr2 tr3 : List Char) (t : Transport) :
    Except (MErr × Transport) Transport := do
  let t ← setIsoMode t
  let (_, t) ← cleanIsoTrackData [tr1, tr2, tr3] t
  return t

/-- The device responses consumed by a successful `setIsoMode`: three OK
statuses for select_bpi, the echoed confirmation for set_bpc(7, 5, 5), and an
OK status for set_leading_zero. -/
def isoModeOkInput : List Nat :=
  [0x1B, 0x30, 0x1B, 0x30, 0x1B, 0x30, 0x1B, 0x30, 7, 5, 5, 0x1B, 0x30]

/-- The bytes `setIsoMode` transmits: the three select_bpi commands, the
set_bpc command, and the set_leading_zero command. -/
def isoModeOutput : List Nat :=
  [0x1B, 0x62, 0x4B, 0x1B, 0x62, 0xA1, 0x1B, 0x62, 0xC1,
   0x1B, 0x6F, 7, 5, 5, 0x1B, 0x7A, 61, 22]

/-! ## Codec lemmas -/

theorem xorLt16 : ∀ a b : Nat, a < 16 → b < 16 → a ^^^ b < 16 := by
  intro a b ha hb
  have h := Nat.xor_lt_two_pow (n := 4) ha hb
  simpa using h

theorem xorLt64 : ∀ a b : Nat, a < 64 → b < 64 → a ^^^ b < 64 := by
  intro a b ha hb
  have h := Nat.xor_lt_two_pow (n := 6) ha hb
  simpa using h

/-- The unit emitted by `withParity` for a 4-data-bit symbol: odd total
parity over all 5 bits, parity bit set exactly when the data bits have even
parity, and the data bits recoverable as the value mod 16. -/
theorem withParity5_facts : ∀ v : Fin 16,
    bitCount (withParity v.val 5) 5 % 2 = 1 ∧
    ((withParity v.val 5).testBit 4 = true ↔ bitCount (withParity v.val 5) 4 % 2 = 0) ∧
    withParity v.val 5 % 16 = v.val := by decide

/-- The unit emitted by `withParity` for a 6-data-bit symbol. -/
theorem withParity7_facts : ∀ v : Fin 64,
    bitCount (withParity v.val 7) 7 % 2 = 1 ∧
    ((withParity v.val 7).testBit 6 = true ↔ bitCount (withParity v.val 7) 6 % 2 = 0) ∧
    withParity v.val 7 % 64 = v.val := by decide

theorem encodeUnits_mem_mapping (mapping : List Char) (nbits : Nat) :
    ∀ data lrc units, encodeUnits mapping nbits data lrc = some units →
      ∀ c ∈ data, c ∈ mapping := by
  intro data
  induction data with
  | nil => intro lrc units _ c hc; cases hc
  | cons a rest ih =>
    intro lrc units h c hc
    unfold encodeUnits at h
    split at h
    · rcases List.mem_cons.mp hc with rfl | hc
      · assumption
      · rcases Option.map_eq_some'.mp h with ⟨us, hus, _⟩
        exact ih _ us hus c hc
    · exact absurd h (by simp)

theorem encodeUnits_units_shape (mapping : List Char) (nbits m : Nat)
    (hm : mapping.length ≤ m) (hx : ∀ a b : Nat, a < m → b < m → a ^^^ b < m) :
    ∀ data lrc units, lrc < m → encodeUnits mapping nbits data lrc = some units →
      ∀ u ∈ units, ∃ v, v < m ∧ u = withParity v nbits := by
  intro data
  induction data with
  | nil =>
    intro lrc units hlrc h u hu
    unfold encodeUnits at h
    injection h with h
    subst h
    simp only [List.mem_singleton] at hu
    exact ⟨lrc, hlrc, hu⟩
  | cons a rest ih =>
    intro lrc units hlrc h u hu
    unfold encodeUnits at h
    split at h
    · rcases Option.map_eq_some'.mp h with ⟨us, hus, hu'⟩
      have ha : a ∈ mapping := by assumption
      have hidx : mapping.indexOf a < m :=
        lt_of_lt_of_le (List.indexOf_lt_length.mpr ha) hm
      subst hu'
      rcases List.mem_cons.mp hu with rfl | hu
      · exact ⟨mapping.indexOf a, hidx, rfl⟩
      · exact ih _ us (hx _ _ hlrc hidx) hus u hu
    · exact absurd h (by simp)

theorem encodeUnits_length_last (mapping : List Char) (nbits : Nat) :
    ∀ data lrc units, encodeUnits mapping nbits data lrc = some units →
      units.length = data.length + 1 ∧
      units.getLast? =
        some (withParity (data.foldl (fun a c => a ^^^ mapping.indexOf c) lrc) nbits) := by
  intro data
  induction data with
  | nil =>
    intro lrc units h
    unfold encodeUnits at h
    injection h with h
    subst h
    simp
  | cons a rest ih =>
    intro lrc units h
    unfold encodeUnits at h
    split at h
    · rcases Option.map_eq_some'.mp h with ⟨us, hus, hu'⟩
      subst hu'
      obtain ⟨hlen, hlast⟩ := ih _ us hus
      constructor
      · simp [hlen]
      · match us, hlen with
        | b :: us', _ =>
          rw [List.getLast?_cons_cons, hlast]
          simp
    · exact absurd h (by simp)

theorem foldl_xor_lt (mapping : List Char) (m : Nat) (hm : mapping.length ≤ m)
    (hx : ∀ a b : Nat, a < m → b < m → a ^^^ b < m) :
    ∀ (data : List Char) (lrc : Nat), lrc < m → (∀ c ∈ data, c ∈ mapping) →
      data.foldl (fun a c => a ^^^ mapping.indexOf c) lrc < m := by
  intro data
  induction data with
  | nil => intro lrc h _; simpa using h
  | cons a rest ih =>
    intro lrc hlrc hmem
    have ha : a ∈ mapping := hmem a (List.mem_cons_self a rest)
    have hidx : mapping.indexOf a < m :=
      lt_of_lt_of_le (List.indexOf_lt_length.mpr ha) hm
    simpa using ih (lrc ^^^ mapping.indexOf a) (hx _ _ hlrc hidx)
      fun c hc => hmem c (List.mem_cons_of_mem a hc)

theorem reverseBits_eq_mod (v n : Nat) : reverseBits v n = reverseBits (v % 2 ^ n) n := by
  unfold reverseBits
  congr 1
  apply List.map_congr_left
  intro i hi
  have hin : i < n := List.mem_range.mp hi
  rw [Nat.testBit_mod_two_pow]
  simp [hin]

theorem reverseBits4_lt (x : Nat) : reverseBits x 4 < 16 := by
  rw [reverseBits_eq_mod]
  exact (by decide : ∀ y : Fin 16, reverseBits y.val 4 < 16) ⟨x % 2 ^ 4, by omega⟩

theorem reverseBits6_lt (x : Nat) : reverseBits x 6 < 64 := by
  rw [reverseBits_eq_mod]
  exact (by decide : ∀ y : Fin 64, reverseBits y.val 6 < 64)
    ⟨x % 2 ^ 6, Nat.mod_lt _ (by norm_num)⟩

theorem decodeChars_total (mapping : List Char) (nbits : Nat)
    (h : ∀ b : Nat, reverseBits (b >>> 1) (nbits - 1) < mapping.length) :
    ∀ data, ∃ out, decodeChars mapping nbits data = some out ∧ out.length = data.length := by
  intro data
  induction data with
  | nil => exact ⟨[], rfl, rfl⟩
  | cons b rest ih =>
    obtain ⟨out, hout, hlen⟩ := ih
    have hc := List.get?_eq_get (h b)
    refine ⟨mapping.get ⟨reverseBits (b >>> 1) (nbits - 1), h b⟩ :: out, ?_, by simpa using hlen⟩
    unfold decodeChars
    rw [hc, hout]

/-! ## Claim theorems: the ISO 7811-2 codec -/

/-- C1 counterexample: decoding the encoded unit of '1' yields '0', not '1',
and encoding the track-2 string "1234567890123456" and decoding the resulting
byte sequence does not return the original string.  (Encode places the parity
bit at the top of the unit, while decode discards the bottom bit and reverses
the remaining bits, so the two are inverse only across the wire-level
bit reversal.) -/
theorem c1_roundtrip_counterexample :
    isoEncodeData ['1'] TRACK23_CHARS 5 = some [1, 1] ∧
    isoDecodeData [1, 1] TRACK23_CHARS 5 = some ['0', '0'] ∧
    (isoEncodeData "1234567890123456".toList TRACK23_CHARS 5).map
      (fun us => isoDecodeData us TRACK23_CHARS 5) ≠
      some (some "1234567890123456".toList) := by decide

/-- C1 (amended): for every character c of either track alphabet, decoding the
encoded unit of c after reversing its bits within the unit width (the reversal
the raw-write path applies before transmission) yields c back; encoding the
track-2 string "1234567890123456" and decoding the per-unit bit-reversed byte
sequence returns the original string followed by the LRC checksum character
'6'. -/
theorem c1_roundtrip_amended :
    (∀ c ∈ TRACK23_CHARS,
      isoDecodeData [reverseBits (withParity (TRACK23_CHARS.indexOf c) 5) 5]
        TRACK23_CHARS 5 = some [c]) ∧
    (∀ c ∈ TRACK1_CHARS,
      isoDecodeData [reverseBits (withParity (TRACK1_CHARS.indexOf c) 7) 7]
        TRACK1_CHARS 7 = some [c]) ∧
    (isoEncodeData "1234567890123456".toList TRACK23_CHARS 5).map
      (fun us => isoDecodeData (us.map (reverseBits · 5)) TRACK23_CHARS 5) =
      some (some "12345678901234566".toList) := by decide

theorem c1_roundtrip_amended_witness :
    isoDecodeData [reverseBits (withParity (TRACK23_CHARS.indexOf '1') 5) 5]
      TRACK23_CHARS 5 = some ['1'] :=
  c1_roundtrip_amended.1 '1' (by decide)

/-- C2: every unit produced by encode (the per-character units and the
trailing LRC unit alike) has an odd number of 1-bits among its data bits plus
parity bit, and its parity bit (the top bit of the unit) is set exactly when
the data bits alone have even parity. -/
theorem c2_encode_parity (data : List Char) (units : List Nat) :
    (isoEncodeData data TRACK23_CHARS 5 = some units →
      ∀ u ∈ units, bitCount u 5 % 2 = 1 ∧ (u.testBit 4 = true ↔ bitCount u 4 % 2 = 0)) ∧
    (isoEncodeData data TRACK1_CHARS 7 = some units →
      ∀ u ∈ units, bitCount u 7 % 2 = 1 ∧ (u.testBit 6 = true ↔ bitCount u 6 % 2 = 0)) := by
  constructor
  · intro h u hu
    obtain ⟨v, hv, rfl⟩ :=
      encodeUnits_units_shape TRACK23_CHARS 5 16 (by decide) xorLt16 data 0 units
        (by decide) h u hu
    exact ⟨(withParity5_facts ⟨v, hv⟩).1, (withParity5_facts ⟨v, hv⟩).2.1⟩
  · intro h u hu
    obtain ⟨v, hv, rfl⟩ :=
      encodeUnits_units_shape TRACK1_CHARS 7 64 (by decide) xorLt64 data 0 units
        (by decide) h u hu
    exact ⟨(withParity7_facts ⟨v, hv⟩).1, (withParity7_facts ⟨v, hv⟩).2.1⟩

theorem c2_encode_parity_witness :
    bitCount 19 5 % 2 = 1 ∧ ((19 : Nat).testBit 4 = true ↔ bitCount 19 4 % 2 = 0) :=
  ((c2_encode_parity "12".toList [1, 2, 19]).1 (by decide)) 19 (by decide)

/-- C3: encode outputs exactly one unit per input character plus one final
unit, and the symbol value (the data bits, i.e. the unit modulo 16 resp. 64)
of that final unit is the exclusive-OR of the symbol indices of all input
characters. -/
theorem c3_encode_lrc (data : List Char) (units : List Nat) :
    (isoEncodeData data TRACK23_CHARS 5 = some units →
      units.length = data.length + 1 ∧
      units.getLast?.map (· % 16) =
        some (data.foldl (fun a c => a ^^^ TRACK23_CHARS.indexOf c) 0)) ∧
    (isoEncodeData data TRACK1_CHARS 7 = some units →
      units.length = data.length + 1 ∧
      units.getLast?.map (· % 64) =
        some (data.foldl (fun a c => a ^^^ TRACK1_CHARS.indexOf c) 0)) := by
  constructor
  · intro h
    obtain ⟨hlen, hlast⟩ := encodeUnits_length_last TRACK23_CHARS 5 data 0 units h
    refine ⟨hlen, ?_⟩
    rw [hlast]
    have hL : data.foldl (fun a c => a ^^^ TRACK23_CHARS.indexOf c) 0 < 16 :=
      foldl_xor_lt TRACK23_CHARS 16 (by decide) xorLt16 data 0 (by decide)
        (encodeUnits_mem_mapping TRACK23_CHARS 5 data 0 units h)
    simpa using (withParity5_facts ⟨_, hL⟩).2.2
  · intro h
    obtain ⟨hlen, hlast⟩ := encodeUnits_length_last TRACK1_CHARS 7 data 0 units h
    refine ⟨hlen, ?_⟩
    rw [hlast]
    have hL : data.foldl (fun a c => a ^^^ TRACK1_CHARS.indexOf c) 0 < 64 :=
      foldl_xor_lt TRACK1_CHARS 64 (by decide) xorLt64 data 0 (by decide)
        (encodeUnits_mem_mapping TRACK1_CHARS 7 data 0 units h)
    simpa using (withParity7_facts ⟨_, hL⟩).2.2

theorem c3_encode_lrc_witness :
    ([1, 2, 19] : List Nat).length = "12".toList.length + 1 ∧
    ([1, 2, 19] : List Nat).getLast?.map (· % 16) =
      some ("12".toList.foldl (fun a c => a ^^^ TRACK23_CHARS.indexOf c) 0) :=
  (c3_encode_lrc "12".toList [1, 2, 19]).1 (by decide)

/-- C7: the byte-level bit reversal is an involution on all byte values
0..255, and the output byte's bit at position i is the input byte's bit at
position 7 - i. -/
theorem c7_reverse_bits_involution :
    ∀ x : Fin 256, byteReverseBits (byteReverseBits x.val) = x.val ∧
      ∀ i : Fin 8, (byteReverseBits x.val).testBit i.val = x.val.testBit (7 - i.val) := by
  decide

/-- C10: decode produces exactly one character per input byte — the trailing
LRC unit is decoded like any other unit and no parity or checksum check can
fail or shorten the output — for both track codecs and arbitrary input
bytes. -/
theorem c10_decode_length (data : List Nat) :
    (∃ out, isoDecodeData data TRACK23_CHARS 5 = some out ∧ out.length = data.length) ∧
    (∃ out, isoDecodeData data TRACK1_CHARS 7 = some out ∧ out.length = data.length) := by
  constructor
  · exact decodeChars_total TRACK23_CHARS 5
      (fun b => lt_of_lt_of_le (reverseBits4_lt (b >>> 1)) (by decide)) data
  · exact decodeChars_total TRACK1_CHARS 7
      (fun b => lt_of_lt_of_le (reverseBits6_lt (b >>> 1)) (by decide)) data

/-! ## Transport lemmas -/

theorem exceptBind_ok {ε α β : Type} (a : α) (f : α → Except ε β) :
    (Except.ok a >>= f) = f a := rfl

theorem exceptBind_error {ε α β : Type} (e : ε) (f : α → Except ε β) :
    ((Except.error e : Except ε α) >>= f) = Except.error e := rfl

/-- Reading a status from a two-byte reply ESC + b: the result depends only on
whether b is one of the five recognized error bytes. -/
theorem readStatusT_two (b : Nat) :
    readStatusT ⟨[0x1B, b], []⟩ =
      match statusExceptions b with
      | some e => .error (e, ⟨[], []⟩)
      | none => .ok ([b], ⟨[], []⟩) := rfl

/-! ## Claim theorems: the protocol engine -/

/-- C4 counterexample: the undefined status byte 0xFF is silently accepted —
_read_status returns it like a success value instead of surfacing a framing
anomaly. -/
theorem c4_status_counterexample :
    readStatusT ⟨[0x1B, 0xFF], []⟩ = .ok ([0xFF], ⟨[], []⟩) := rfl

/-- C4 (amended): each of the five defined status bytes raises its own
distinct error, the byte 0x30 following ESC returns OK, the stream
0x1B 0x32 raises CommandFormatError — but an undefined status byte is
returned as a normal status value without raising anything. -/
theorem c4_status_mapping_amended :
    readStatusT ⟨[0x1B, 0x31], []⟩ = .error (.readWriteError, ⟨[], []⟩) ∧
    readStatusT ⟨[0x1B, 0x32], []⟩ = .error (.commandFormatError, ⟨[], []⟩) ∧
    readStatusT ⟨[0x1B, 0x34], []⟩ = .error (.invalidCommand, ⟨[], []⟩) ∧
    readStatusT ⟨[0x1B, 0x39], []⟩ = .error (.invalidCardSwipeForWrite, ⟨[], []⟩) ∧
    readStatusT ⟨[0x1B, 0x41], []⟩ = .error (.setError, ⟨[], []⟩) ∧
    readStatusT ⟨[0x1B, 0x30], []⟩ = .ok ([0x30], ⟨[], []⟩) ∧
    ([.readWriteError, .commandFormatError, .invalidCommand,
      .invalidCardSwipeForWrite, .setError] : List MErr).Pairwise (· ≠ ·) ∧
    (∀ b : Nat, statusExceptions b = none →
      readStatusT ⟨[0x1B, b], []⟩ = .ok ([b], ⟨[], []⟩)) := by
  refine ⟨rfl, rfl, rfl, rfl, rfl, rfl, by decide, ?_⟩
  intro b hb
  rw [readStatusT_two, hb]

theorem c4_status_mapping_amended_witness :
    readStatusT ⟨[0x1B, 0x33], []⟩ = .ok ([0x33], ⟨[], []⟩) :=
  c4_status_mapping_amended.2.2.2.2.2.2.2 0x33 (by decide)

/-- C8: _expect reads exactly len(data) bytes — the transport is advanced by
len(data) whether or not the comparison succeeds — it succeeds exactly when
the bytes read equal the expected bytes, and on any mismatch it raises a
ReadError carrying both the expected bytes and the bytes actually read. -/
theorem c8_expect_mismatch (data : List Nat) (t : Transport) :
    (∀ t', expectT data t = .ok t' →
      t' = ⟨t.input.drop data.length, t.output⟩ ∧ t.input.take data.length = data) ∧
    (t.input.take data.length ≠ data →
      expectT data t =
        .error (.readError data (t.input.take data.length),
          ⟨t.input.drop data.length, t.output⟩)) := by
  constructor
  · intro t' h
    unfold expectT readT at h
    dsimp at h
    split at h
    · cases h
      exact ⟨rfl, by assumption⟩
    · cases h
  · intro hne
    unfold expectT readT
    dsimp
    rw [if_neg hne]

theorem c8_expect_mismatch_witness :
    expectT [1] ⟨[2], []⟩ = .error (.readError [1] [2], ⟨[], []⟩) :=
  (c8_expect_mismatch [1] ⟨[2], []⟩).2 (by decide)

/-- C9: erase_card packs the three flags into one bitmask byte with
bit 0 = t1, bit 1 = t2, bit 2 = t3, transmits exactly the frame
ESC 0x63 followed by that byte as the only argument, and then reads a status
(raising the mapped error when the device answers with an error status). -/
theorem c9_erase_card (t1 t2 t3 : Bool) :
    eraseCard t1 t2 t3 ⟨[0x1B, 0x30], []⟩ =
      .ok ⟨[], [0x1B, 0x63,
        (if t1 then 1 else 0) ||| (if t2 then 2 else 0) ||| (if t3 then 4 else 0)]⟩ ∧
    ((if t1 then 1 else 0) ||| (if t2 then 2 else 0) |||
        (if t3 then 4 else 0) : Nat).testBit 0 = t1 ∧
    ((if t1 then 1 else 0) ||| (if t2 then 2 else 0) |||
        (if t3 then 4 else 0) : Nat).testBit 1 = t2 ∧
    ((if t1 then 1 else 0) ||| (if t2 then 2 else 0) |||
        (if t3 then 4 else 0) : Nat).testBit 2 = t3 ∧
    eraseCard t1 t2 t3 ⟨[0x1B, 0x32], []⟩ =
      .error (.commandFormatError, ⟨[], [0x1B, 0x63,
        (if t1 then 1 else 0) ||| (if t2 then 2 else 0) ||| (if t3 then 4 else 0)]⟩) := by
  cases t1 <;> cases t2 <;> cases t3 <;>
    exact ⟨rfl, by decide, by decide, by decide, rfl⟩

/-! ## Claim C5: soft ISO write validation order -/

/-- C5 counterexample: writing the TrackSet ("", "W", "") — whose track-2 text
contains 'W', absent from the 16-symbol alphabet — does not raise
CharacterNotInAlphabet at all: the call to the mis-defined
_clean_iso_track_data raises TypeError, and only after the ISO-mode
configuration commands (a nonempty byte sequence) have already been
transmitted.  Validation happens neither before transmission nor ever. -/
theorem c5_validation_counterexample :
    writeIsoSoft [] ['W'] [] ⟨isoModeOkInput, []⟩ =
      .error (.typeError, ⟨[], isoModeOutput⟩) ∧
    MErr.typeError ≠ MErr.characterNotInAlphabet ∧
    isoModeOutput ≠ [] := ⟨rfl, by decide, by decide⟩

/-- C5 (amended): for every TrackSet — in particular every one whose text
contains a character absent from the corresponding track's alphabet — the
soft ISO write raises TypeError from the call to _clean_iso_track_data (the
method is defined without a self parameter), after the ISO-mode configuration
commands have been transmitted but before any raw-write bytes are sent: at
the moment of the raise the transmitted bytes are exactly `isoModeOutput`.
It never reaches alphabet validation and never raises
CharacterNotInAlphabet. -/
theorem c5_validation_amended (tr1 tr2 tr3 : List Char) :
    writeIsoSoft tr1 tr2 tr3 ⟨isoModeOkInput, []⟩ =
      .error (.typeError, ⟨[], isoModeOutput⟩) ∧
    MErr.typeError ≠ MErr.characterNotInAlphabet ∧
    isoModeOutput ≠ [] := ⟨rfl, by decide, by decide⟩

/-! ## Claim C6: raw track read -/

theorem expectT_ok_decompose {d : List Nat} {t t' : Transport}
    (h : expectT d t = .ok t') :
    t.input = d ++ t'.input ∧ t'.output = t.output := by
  unfold expectT readT at h
  dsimp only at h
  split at h
  · rename_i hcond
    cases h
    refine ⟨?_, rfl⟩
    nth_rewrite 1 [← hcond]
    exact (List.take_append_drop d.length t.input).symm
  · cases h

theorem readStatusT_ok_decompose {t t' : Transport} {st : List Nat}
    (h : readStatusT t = .ok (st, t')) :
    t.input = 0x1B :: (st ++ t'.input) ∧ t'.output = t.output ∧ st.length ≤ 1 ∧
      st.all (fun s => (statusExceptions s).isNone) = true ∧
      (st = [] → t'.input = []) := by
  unfold readStatusT at h
  cases he : expectT [0x1B] t with
  | error e =>
    rw [he, exceptBind_error] at h
    exact Except.noConfusion h
  | ok t1 =>
    rw [he, exceptBind_ok] at h
    obtain ⟨hin, hout⟩ := expectT_ok_decompose he
    obtain ⟨t1in, t1out⟩ := t1
    cases t1in with
    | nil =>
      rw [show readT 1 (⟨[], t1out⟩ : Transport) = ([], ⟨[], t1out⟩) from rfl] at h
      dsimp only at h
      cases h
      exact ⟨by simpa using hin, hout, by simp, rfl, fun _ => rfl⟩
    | cons s rest =>
      rw [show readT 1 (⟨s :: rest, t1out⟩ : Transport) = ([s], ⟨rest, t1out⟩) from rfl] at h
      dsimp only at h
      cases hs : statusExceptions s with
      | some e =>
        rw [hs] at h
        exact Except.noConfusion h
      | none =>
        rw [hs] at h
        cases h
        exact ⟨by simpa using hin, hout, by simp, by simp [hs], by simp⟩

theorem readTrackT_ok_decompose {tn : Nat} {t t' : Transport} {d : List Nat}
    (h : readTrackT tn t = .ok (d, t')) :
    ∃ n rest, t.input = [0x1B, tn, n] ++ rest ∧ d = rest.take n ∧
      t' = ⟨rest.drop n, t.output⟩ := by
  unfold readTrackT at h
  cases he : expectT [0x1B, tn] t with
  | error e =>
    rw [he, exceptBind_error] at h
    exact Except.noConfusion h
  | ok t1 =>
    rw [he, exceptBind_ok] at h
    obtain ⟨hin, hout⟩ := expectT_ok_decompose he
    obtain ⟨t1in, t1out⟩ := t1
    cases t1in with
    | nil =>
      rw [show readT 1 (⟨[], t1out⟩ : Transport) = ([], ⟨[], t1out⟩) from rfl] at h
      dsimp only at h
      exact Except.noConfusion h
    | cons n rest =>
      rw [show readT 1 (⟨n :: rest, t1out⟩ : Transport) = ([n], ⟨rest, t1out⟩) from rfl] at h
      dsimp only at h
      rw [show readT n (⟨rest, t1out⟩ : Transport) = (rest.take n, ⟨rest.drop n, t1out⟩)
        from rfl] at h
      cases h
      dsimp only at hout
      exact ⟨n, rest, by simpa using hin, rfl, by rw [hout]⟩

/-- When a track read is followed by a successful expect of a further marker,
the track read cannot have hit the end of the input, so it read exactly the
announced number of bytes. -/
theorem track_read_full {n : Nat} {rest tail : List Nat}
    (hne : rest.drop n = tail) (htail : tail ≠ []) :
    (rest.take n).length = n ∧ rest = rest.take n ++ tail := by
  have hlt : n < rest.length := by
    by_contra hle
    exact htail (hne ▸ List.drop_eq_nil_of_le (by omega))
  constructor
  · simp [List.length_take]
    omega
  · rw [← hne]
    exact (List.take_append_drop n rest).symm

/-- The simulated device response of the C6 scenario: block start, track 1
with length 3 and bytes "ABC", tracks 2 and 3 empty, terminator, OK status. -/
def c6ScenarioInput : List Nat :=
  [0x1B, 0x73, 0x1B, 0x01, 0x03, 0x41, 0x42, 0x43, 0x1B, 0x02, 0x00,
   0x1B, 0x03, 0x00, 0x3F, 0x1C, 0x1B, 0x30]

/-- C6 counterexample: with valid framing but the undefined, non-OK status
byte 0xFF, read_raw returns the tracks normally instead of raising. -/
theorem c6_read_raw_counterexample :
    readRaw ⟨[0x1B, 0x73, 0x1B, 0x01, 0x03, 0x41, 0x42, 0x43, 0x1B, 0x02, 0x00,
      0x1B, 0x03, 0x00, 0x3F, 0x1C, 0x1B, 0xFF], []⟩ =
      .ok (([0x41, 0x42, 0x43], [], []), ⟨[], [0x1B, 0x6D]⟩) ∧ (0xFF : Nat) ≠ 0x30 :=
  ⟨rfl, by decide⟩

/-- C6 (amended): on the scenario transport, read_raw returns the triple
("ABC", "", ""); and read_raw returns normally only when every expectation
matched — the input consists of the block start, the three per-track markers
each followed by its announced number of bytes, and the terminator — and the
trailing status byte, when present, is none of the five recognized error
statuses.  (An undefined status byte such as 0xFF is accepted, so read_raw
raises on the recognized error statuses, not on every non-OK byte.) -/
theorem c6_read_raw_amended :
    (readRaw ⟨c6ScenarioInput, []⟩ =
      .ok (([0x41, 0x42, 0x43], [], []), ⟨[], [0x1B, 0x6D]⟩)) ∧
    (∀ (t t' : Transport) (d1 d2 d3 : List Nat),
      readRaw t = .ok ((d1, d2, d3), t') →
      t.input = [0x1B, 0x73, 0x1B, 0x01, d1.length] ++ d1 ++ [0x1B, 0x02, d2.length] ++ d2
          ++ [0x1B, 0x03, d3.length] ++ d3 ++ [0x3F, 0x1C, 0x1B]
          ++ t.input.drop (14 + d1.length + d2.length + d3.length) ∧
        ((t.input.drop (14 + d1.length + d2.length + d3.length)).take 1).all
          (fun s => (statusExceptions s).isNone) = true) := by
  refine ⟨rfl, ?_⟩
  intro t t' d1 d2 d3 h
  simp only [readRaw] at h
  cases he1 : expectT [0x1B, 0x73] (sendCommandT [0x6D] [] t) with
  | error e => rw [he1, exceptBind_error] at h; exact Except.noConfusion h
  | ok t1 =>
  rw [he1, exceptBind_ok] at h
  try dsimp only at h
  cases hr1 : readTrackT 1 t1 with
  | error e => rw [hr1, exceptBind_error] at h; exact Except.noConfusion h
  | ok p1 =>
  obtain ⟨e1, s1⟩ := p1
  rw [hr1, exceptBind_ok] at h
  try dsimp only at h
  cases hr2 : readTrackT 2 s1 with
  | error e => rw [hr2, exceptBind_error] at h; exact Except.noConfusion h
  | ok p2 =>
  obtain ⟨e2, s2⟩ := p2
  rw [hr2, exceptBind_ok] at h
  try dsimp only at h
  cases hr3 : readTrackT 3 s2 with
  | error e => rw [hr3, exceptBind_error] at h; exact Except.noConfusion h
  | ok p3 =>
  obtain ⟨e3, s3⟩ := p3
  rw [hr3, exceptBind_ok] at h
  try dsimp only at h
  cases he4 : expectT [0x3F, 0x1C] s3 with
  | error e => rw [he4, exceptBind_error] at h; exact Except.noConfusion h
  | ok s4 =>
  rw [he4, exceptBind_ok] at h
  try dsimp only at h
  cases hst : readStatusT s4 with
  | error e => rw [hst, exceptBind_error] at h; exact Except.noConfusion h
  | ok pst =>
  obtain ⟨st, s5⟩ := pst
  rw [hst, exceptBind_ok] at h
  try dsimp only at h
  cases h
  obtain ⟨hin1, hout1⟩ := expectT_ok_decompose he1
  obtain ⟨n1, r1, hin2, hd1, hs1⟩ := readTrackT_ok_decompose hr1
  obtain ⟨n2, r2, hin3, hd2, hs2⟩ := readTrackT_ok_decompose hr2
  obtain ⟨n3, r3, hin4, hd3, hs3⟩ := readTrackT_ok_decompose hr3
  obtain ⟨hin5, hout5⟩ := expectT_ok_decompose he4
  obtain ⟨hin6, _, hstlen, hall, hstnil⟩ := readStatusT_ok_decompose hst
  subst hs1 hs2 hs3 hd1 hd2 hd3
  dsimp only at hin3 hin4 hin5
  -- the three track reads were full reads: each is followed by a marker
  obtain ⟨hl1, hsplit1⟩ := track_read_full hin3 (by simp)
  obtain ⟨hl2, hsplit2⟩ := track_read_full hin4 (by simp)
  obtain ⟨hl3, hsplit3⟩ := track_read_full hin5 (by simp)
  dsimp only [sendCommandT, writeT] at hin1
  set a1 := r1.take n1 with hA1
  set a2 := r2.take n2 with hA2
  set a3 := r3.take n3 with hA3
  have hfull : t.input =
      ([0x1B, 0x73, 0x1B, 0x01, a1.length] ++ a1
        ++ [0x1B, 0x02, a2.length] ++ a2
        ++ [0x1B, 0x03, a3.length] ++ a3
        ++ [0x3F, 0x1C, 0x1B]) ++ (st ++ t'.input) := by
    rw [hin1, hin2, hsplit1, hsplit2, hsplit3, hin6, ← hl1, ← hl2, ← hl3]
    simp [List.append_assoc]
  have hPlen : ([0x1B, 0x73, 0x1B, 0x01, a1.length] ++ a1
      ++ [0x1B, 0x02, a2.length] ++ a2
      ++ [0x1B, 0x03, a3.length] ++ a3
      ++ [0x3F, 0x1C, 0x1B] : List Nat).length =
      14 + a1.length + a2.length + a3.length := by
    simp
    omega
  have hdrop : t.input.drop (14 + a1.length + a2.length + a3.length) =
      st ++ t'.input := by
    rw [hfull]
    exact List.drop_left' hPlen
  constructor
  · rw [hdrop]
    rw [hfull]
    try simp [List.append_assoc]
  · rw [hdrop]
    cases st with
    | nil => simp [hstnil rfl]
    | cons s rest =>
      have : rest = [] := by simpa using hstlen
      subst this
      simpa using hall

theorem c6_read_raw_amended_witness :
    (⟨c6ScenarioInput, []⟩ : Transport).input =
      [0x1B, 0x73, 0x1B, 0x01, 3] ++ [0x41, 0x42, 0x43] ++ [0x1B, 0x02, 0] ++ []
        ++ [0x1B, 0x03, 0] ++ [] ++ [0x3F, 0x1C, 0x1B]
        ++ (⟨c6ScenarioInput, []⟩ : Transport).input.drop 17 ∧
    (((⟨c6ScenarioInput, []⟩ : Transport).input.drop 17).take 1).all
      (fun s => (statusExceptions s).isNone) = true :=
  c6_read_raw_amended.2 ⟨c6ScenarioInput, []⟩ ⟨[], [0x1B, 0x6D]⟩
    [0x41, 0x42, 0x43] [] [] rfl

end MSR605Spec
